import Mathlib

/-!
Verification development for the columnar table engine of `react-wasm-table`
(`crates/core`): typed columnar storage with string interning, column filters,
a multi-key stable sort over row indices, a dirty-tracked view rebuild, and a
virtual-window calculator.

Conventions of the embedding:
* Rust `f64` cells are modelled by `F64`: either the NaN null sentinel or an
  exact rational value.  All comparisons and the epsilon arithmetic used by
  the filter engine are exact on the rationals involved (the concrete inputs
  used below are dyadic, where IEEE arithmetic is itself exact).
* Rust strings are modelled as byte lists (`List Nat`); `str::cmp` is the
  lexicographic byte order `listCompare`.
* `serde_json::Value` is modelled by `JsonValue` over null / bool / number /
  string; JSON numbers are carried at their integer values, which is exact
  for every number the repository constructs, and `Number::as_f64` is the
  identity embedding.
* Rust's `slice::sort_by` is documented as a stable sort; it is modelled by
  the stable insertion sort `isortBy` (any two stable sorts agree on a
  comparator that is a total preorder, and the development only relies on
  stability and the comparator's pointwise results).
* Out-of-range indexing that panics in Rust (`v[i]`) is modelled with `getD`
  defaults; every theorem that quantifies over rows carries the in-range
  hypotheses under which the two coincide.
-/

namespace ReactWasmTable

/-- Model of an `f64` cell: NaN is the null sentinel, every other value is an
exact rational. -/
inductive F64 where
  | nan : F64
  | val (q : ℚ) : F64
  deriving DecidableEq

/-- Model of `f64::is_nan`. -/
def F64.isNan : F64 → Bool
  | .nan => true
  | .val _ => false

/-- `f64::EPSILON` is `2.220446049250313e-16 = 2 ^ (-52)`. -/
def epsilon : ℚ := 1 / 2 ^ 52

/-- Model of `a.partial_cmp(&b).unwrap_or(Equal)` on two non-NaN floats:
the total order on the rational values. -/
def compareQ (a b : ℚ) : Ordering :=
  if a < b then .lt else if a = b then .eq else .gt

/-- Lexicographic byte order: model of `str::cmp` / `<[u8]>::cmp`. -/
def listCompare : List Nat → List Nat → Ordering
  | [], [] => .eq
  | [], _ :: _ => .lt
  | _ :: _, [] => .gt
  | a :: as', b :: bs =>
    if a < b then .lt else if b < a then .gt else listCompare as' bs

/-- Model of `serde_json::Value` restricted to the shapes the repository
builds: null, booleans, numbers (carried at integer values, exact for every
fixture of the crate) and strings as byte lists. -/
inductive JsonValue where
  | null : JsonValue
  | bool (b : Bool) : JsonValue
  | num (n : ℤ) : JsonValue
  | str (s : List Nat) : JsonValue
  deriving DecidableEq

/-- Model of `Value::as_f64`: only numbers convert. -/
def JsonValue.asF64 : JsonValue → Option ℚ
  | .num n => some (n : ℚ)
  | _ => none

/-- Model of `Value::as_str`. -/
def JsonValue.asStr : JsonValue → Option (List Nat)
  | .str s => some s
  | _ => none

/-- Model of `Value::as_bool`. -/
def JsonValue.asBool : JsonValue → Option Bool
  | .bool b => some b
  | _ => none

/-- Model of `Value::is_null`. -/
def JsonValue.isNull : JsonValue → Bool
  | .null => true
  | _ => false

/-- Model of `Value::is_number`. -/
def JsonValue.isNumber : JsonValue → Bool
  | .num _ => true
  | _ => false

/-- Model of `Value::is_boolean`. -/
def JsonValue.isBoolean : JsonValue → Bool
  | .bool _ => true
  | _ => false

/-- ASCII decimal digits of a natural number (model of integer `Display`). -/
def natDigits (n : Nat) : List Nat :=
  (Nat.toDigits 10 n).map Char.toNat

/-- Model of `serde_json`'s `Display`/`to_string` on the modelled values:
null, booleans and strings render as their JSON text, numbers as their
decimal integer text (exact for the integer numbers the model carries).
It is consumed only by the mixed-type fallback arm of `compare_values`. -/
def jsonToString : JsonValue → List Nat
  | .null => [110, 117, 108, 108]
  | .bool true => [116, 114, 117, 101]
  | .bool false => [102, 97, 108, 115, 101]
  | .num n => if n < 0 then 45 :: natDigits n.natAbs else natDigits n.natAbs
  | .str s => 34 :: s ++ [34]

/-- Filter operator types (`filtering.rs::FilterOperator`). -/
inductive FilterOperator where
  | equals | notEquals | contains
  | greaterThan | lessThan | greaterThanOrEqual | lessThanOrEqual
  deriving DecidableEq

/-- A single filter condition (`filtering.rs::FilterCondition`). -/
structure FilterCondition where
  column_key : String
  operator : FilterOperator
  value : JsonValue
  deriving DecidableEq

/-- Sort direction (`sorting.rs::SortDirection`). -/
inductive SortDirection where
  | ascending | descending
  deriving DecidableEq

/-- Configuration for a single sort operation (`sorting.rs::SortConfig`). -/
structure SortConfig where
  column_index : Nat
  direction : SortDirection
  deriving DecidableEq

/-- Column definition (`data_store.rs::ColumnDef`). -/
structure ColumnDef where
  key : String
  header : String
  width : Option ℚ
  sortable : Bool
  filterable : Bool
  deriving DecidableEq

/-- Interned string table (`columnar_store.rs::StringInternTable`): a flat
byte arena, an (offset, length) pair per intern ID, and the string-to-ID
lookup map modelled as an association list. -/
structure StringInternTable where
  bytes : List Nat
  offsets : List (Nat × Nat)
  lookup : List (List Nat × Nat)
  deriving DecidableEq

/-- `StringInternTable::new`. -/
def StringInternTable.new : StringInternTable :=
  { bytes := [], offsets := [], lookup := [] }

/-- Model of `HashMap::get` on the association-list lookup map. -/
def StringInternTable.lookupGet (t : StringInternTable) (s : List Nat) : Option Nat :=
  (t.lookup.find? (fun p => p.1 = s)).map (·.2)

/-- `StringInternTable::intern`: returns the existing ID on a lookup hit,
otherwise appends the bytes to the arena, records (offset, length), inserts
into the lookup map and returns the fresh sequential ID.  Returns the ID
together with the updated table (explicit state passing). -/
def StringInternTable.intern (t : StringInternTable) (s : List Nat) :
    Nat × StringInternTable :=
  match t.lookupGet s with
  | some id => (id, t)
  | none =>
    let id := t.offsets.length
    let start := t.bytes.length
    (id, { bytes := t.bytes ++ s
           offsets := t.offsets ++ [(start, s.length)]
           lookup := t.lookup ++ [(s, id)] })

/-- `StringInternTable::resolve`: the stored byte slice.  Out-of-range IDs
panic in the source; they are modelled as the empty slice and never relied
upon. -/
def StringInternTable.resolve (t : StringInternTable) (id : Nat) : List Nat :=
  match t.offsets.get? id with
  | some (off, len) => (t.bytes.drop off).take len
  | none => []

/-- `StringInternTable::len`. -/
def StringInternTable.len (t : StringInternTable) : Nat :=
  t.offsets.length

/-- Column data type tag (`columnar_store.rs::ColumnType`). -/
inductive ColumnType where
  | float64 | string | bool
  deriving DecidableEq

/-- Type-specific columnar data (`columnar_store.rs::ColumnData`). -/
inductive ColumnData where
  | float64 (v : List F64)
  | strings (ids : List Nat) (intern : StringInternTable)
  | bool (v : List F64)
  deriving DecidableEq

/-- The columnar data store (`columnar_store.rs::ColumnarStore`).  Scroll
geometry is carried at exact rational values. -/
structure ColumnarStore where
  columns : List ColumnDef
  data : List ColumnData
  row_count : Nat
  generation : Nat
  view_indices : List Nat
  view_dirty : Bool
  sort_configs : List SortConfig
  filter_conditions : List FilterCondition
  row_height : ℚ
  viewport_height : ℚ
  overscan : Nat
  deriving DecidableEq

/-- `ColumnarStore::new`. -/
def ColumnarStore.new : ColumnarStore :=
  { columns := [], data := [], row_count := 0, generation := 0
    view_indices := [], view_dirty := true
    sort_configs := [], filter_conditions := []
    row_height := 36, viewport_height := 600, overscan := 5 }

/-- `ColumnarStore::set_columns`: set definitions and clear data. -/
def ColumnarStore.set_columns (s : ColumnarStore) (columns : List ColumnDef) :
    ColumnarStore :=
  { s with columns := columns, data := [], row_count := 0 }

/-- `ColumnarStore::init`: allocate `col_count` placeholder Float64 columns,
set the row count, bump the generation, mark the view dirty. -/
def ColumnarStore.init (s : ColumnarStore) (col_count row_count : Nat) :
    ColumnarStore :=
  { s with data := List.replicate col_count (ColumnData.float64 [])
           row_count := row_count
           generation := s.generation + 1
           view_dirty := true }

/-- `ColumnarStore::set_column_float64`: overwrite a column in place; a
column index at or beyond the allocated data is silently ignored. -/
def ColumnarStore.set_column_float64 (s : ColumnarStore) (col_idx : Nat)
    (values : List F64) : ColumnarStore :=
  if col_idx < s.data.length then
    { s with data := s.data.set col_idx (ColumnData.float64 values) }
  else s

/-- `ColumnarStore::set_column_bool`. -/
def ColumnarStore.set_column_bool (s : ColumnarStore) (col_idx : Nat)
    (values : List F64) : ColumnarStore :=
  if col_idx < s.data.length then
    { s with data := s.data.set col_idx (ColumnData.bool values) }
  else s

/-- Interning a list of strings in order into a fresh table
(the loop body of `set_column_strings`). -/
def internAll (unique : List (List Nat)) : StringInternTable :=
  unique.foldl (fun t u => (t.intern u).2) StringInternTable.new

/-- `ColumnarStore::set_column_strings`: re-intern the unique strings into a
fresh table and store the per-row ID array. -/
def ColumnarStore.set_column_strings (s : ColumnarStore) (col_idx : Nat)
    (unique : List (List Nat)) (ids : List Nat) : ColumnarStore :=
  if col_idx < s.data.length then
    { s with data := s.data.set col_idx (ColumnData.strings ids (internAll unique)) }
  else s

/-- `ColumnarStore::finalize`: marks the view dirty. -/
def ColumnarStore.finalize (s : ColumnarStore) : ColumnarStore :=
  { s with view_dirty := true }

/-- `ColumnarStore::set_sort`. -/
def ColumnarStore.set_sort (s : ColumnarStore) (configs : List SortConfig) :
    ColumnarStore :=
  { s with sort_configs := configs, view_dirty := true }

/-- `ColumnarStore::set_filters`. -/
def ColumnarStore.set_filters (s : ColumnarStore)
    (conditions : List FilterCondition) : ColumnarStore :=
  { s with filter_conditions := conditions, view_dirty := true }

/-- `ColumnarStore::set_scroll_config`. -/
def ColumnarStore.set_scroll_config (s : ColumnarStore)
    (row_height viewport_height : ℚ) (overscan : Nat) : ColumnarStore :=
  { s with row_height := row_height, viewport_height := viewport_height
           overscan := overscan }

/-- `ColumnarStore::column_type`. -/
def ColumnarStore.column_type (s : ColumnarStore) (col_idx : Nat) :
    Option ColumnType :=
  (s.data.get? col_idx).map fun d =>
    match d with
    | .float64 _ => .float64
    | .strings _ _ => .string
    | .bool _ => .bool

/-- `compare_columnar`: per-key comparator over columnar data.  On the
Float64/Bool branch NaN compares equal to NaN and strictly below every real
value; on the Strings branch the resolved byte slices compare ordinally; an
out-of-range column degrades to `Equal`.  (Row indexing panics out of range
in the source; `getD .nan` / `getD 0` stand in for the in-range uses.) -/
def compare_columnar (store : ColumnarStore) (col_idx row_a row_b : Nat) :
    Ordering :=
  match store.data.get? col_idx with
  | some (.float64 v) | some (.bool v) =>
    let a := v.getD row_a .nan
    let b := v.getD row_b .nan
    match a, b with
    | .nan, .nan => .eq
    | .nan, .val _ => .lt
    | .val _, .nan => .gt
    | .val qa, .val qb => compareQ qa qb
  | some (.strings ids intern) =>
    listCompare (intern.resolve (ids.getD row_a 0)) (intern.resolve (ids.getD row_b 0))
  | none => .eq

/-- ASCII case folding of one byte (`to_lowercase` restricted to the ASCII
range, which covers every fixture of the crate). -/
def lowerByte (b : Nat) : Nat :=
  if 65 ≤ b ∧ b ≤ 90 then b + 32 else b

/-- Model of `str::to_lowercase` on ASCII byte strings. -/
def toLower (s : List Nat) : List Nat :=
  s.map lowerByte

/-- Model of `<[u8]>::starts_with`. -/
def listIsPrefixOf : List Nat → List Nat → Bool
  | [], _ => true
  | _ :: _, [] => false
  | a :: as', b :: bs => a = b && listIsPrefixOf as' bs

/-- Model of `str::contains` on byte strings: some suffix starts with the
needle. -/
def listContains (hay needle : List Nat) : Bool :=
  (List.range (hay.length + 1)).any fun i => listIsPrefixOf needle (hay.drop i)

/-- `matches_columnar`: evaluate one filter condition at one row.  The
Float64/Bool branch returns `matches!(op, NotEquals)` for a NaN cell and
otherwise compares against `value.as_f64()` (epsilon-tolerant equality, plain
ordering comparisons, `Contains` fails); the Strings branch compares the
resolved cell against `value.as_str().unwrap_or("")`; a missing column fails. -/
def matches_columnar (store : ColumnarStore) (col_idx row_idx : Nat)
    (cond : FilterCondition) : Bool :=
  match store.data.get? col_idx with
  | some (.float64 v) | some (.bool v) =>
    let cell := v.getD row_idx .nan
    match cell with
    | .nan => cond.operator = .notEquals
    | .val c =>
      let filter_val := cond.value.asF64
      match cond.operator with
      | .equals => filter_val.any fun fv => |c - fv| < epsilon
      | .notEquals => filter_val.all fun fv => |c - fv| ≥ epsilon
      | .greaterThan => filter_val.any fun fv => c > fv
      | .lessThan => filter_val.any fun fv => c < fv
      | .greaterThanOrEqual => filter_val.any fun fv => c ≥ fv
      | .lessThanOrEqual => filter_val.any fun fv => c ≤ fv
      | .contains => false
  | some (.strings ids intern) =>
    let cell := intern.resolve (ids.getD row_idx 0)
    let filter_str := cond.value.asStr.getD []
    match cond.operator with
    | .equals => cell = filter_str
    | .notEquals => cell ≠ filter_str
    | .contains => listContains (toLower cell) (toLower filter_str)
    | .greaterThan => listCompare cell filter_str = .gt
    | .lessThan => listCompare cell filter_str = .lt
    | .greaterThanOrEqual => listCompare cell filter_str ≠ .lt
    | .lessThanOrEqual => listCompare cell filter_str ≠ .gt
  | none => false

/-- `filter_indices_columnar`: keep the indices whose row matches every
condition, resolving each condition's column key to its position. -/
def filter_indices_columnar (indices : List Nat) (store : ColumnarStore)
    (conditions : List FilterCondition) : List Nat :=
  if conditions = [] then indices
  else
    indices.filter fun idx =>
      conditions.all fun cond =>
        match store.columns.findIdx? (fun c => c.key = cond.column_key) with
        | some ci => matches_columnar store ci idx cond
        | none => false

/-- Model of `Ordering::reverse`. -/
def orderingReverse : Ordering → Ordering
  | .lt => .gt
  | .eq => .eq
  | .gt => .lt

/-- The multi-key comparator closure of `sort_indices_columnar`: keys are
tried in order, the direction reverses the per-key result, the first
non-equal result decides, and exhausted keys report `Equal`. -/
def cmpKeys (store : ColumnarStore) : List SortConfig → Nat → Nat → Ordering
  | [], _, _ => .eq
  | config :: rest, a, b =>
    let ordering := compare_columnar store config.column_index a b
    let ordering := match config.direction with
      | .ascending => ordering
      | .descending => orderingReverse ordering
    if ordering ≠ .eq then ordering else cmpKeys store rest a b

/-- Stable insertion step: `x` is placed after every element that compares
`Greater` than it and before the first that does not. -/
def insertBy (cmp : α → α → Ordering) (x : α) : List α → List α
  | [] => [x]
  | y :: ys => if cmp x y = .gt then y :: insertBy cmp x ys else x :: y :: ys

/-- Stable sort by a comparator: model of `slice::sort_by` (documented to be
stable).  Equal pairs keep their input order. -/
def isortBy (cmp : α → α → Ordering) : List α → List α
  | [] => []
  | x :: xs => insertBy cmp x (isortBy cmp xs)

/-- `sort_indices_columnar`: stable multi-key sort of the index list (the
source early-returns on an empty config list). -/
def sort_indices_columnar (indices : List Nat) (store : ColumnarStore)
    (configs : List SortConfig) : List Nat :=
  if configs = [] then indices
  else isortBy (cmpKeys store configs) indices

/-- `ColumnarStore::rebuild_view`: no-op unless dirty; otherwise clear the
dirty flag, filter the identity index list, sort it when sort keys are
configured, and store it as the view.  (The source's `mem::take` /restore
dance on the config vectors is the identity on the state.) -/
def ColumnarStore.rebuild_view (s : ColumnarStore) : ColumnarStore :=
  if s.view_dirty = false then s
  else
    let all := List.range s.row_count
    let indices := filter_indices_columnar all s s.filter_conditions
    let indices := if s.sort_configs = [] then indices
      else sort_indices_columnar indices s s.sort_configs
    { s with view_dirty := false, view_indices := indices }

/-- `detect_type`: scan rows for the first non-null cell of the column;
number maps to Float64, boolean to Bool, anything else to String, and an
all-null (or absent) column defaults to String. -/
def detect_type (rows : List (List JsonValue)) (col_idx : Nat) : ColumnType :=
  match rows with
  | [] => .string
  | row :: rest =>
    match row.get? col_idx with
    | some v =>
      if v.isNull then detect_type rest col_idx
      else if v.isNumber then .float64
      else if v.isBoolean then .bool
      else .string
    | none => detect_type rest col_idx

/-- Float64 materialization of one column of `ingest_rows`:
`row.get(col).and_then(as_f64).unwrap_or(NAN)`. -/
def ingestFloat64Column (rows : List (List JsonValue)) (col_idx : Nat) :
    List F64 :=
  rows.map fun row =>
    match (row.get? col_idx).bind JsonValue.asF64 with
    | some q => .val q
    | none => .nan

/-- Bool materialization of one column of `ingest_rows`:
true maps to 1.0, false to 0.0, anything else to NaN. -/
def ingestBoolColumn (rows : List (List JsonValue)) (col_idx : Nat) :
    List F64 :=
  rows.map fun row =>
    match (row.get? col_idx).bind JsonValue.asBool with
    | some true => .val 1
    | some false => .val 0
    | none => .nan

/-- String materialization of one column of `ingest_rows`: the empty string
is interned first as the null sentinel, then every cell
(`as_str().unwrap_or("")`) is interned in row order. -/
def ingestStringColumn (rows : List (List JsonValue)) (col_idx : Nat) :
    ColumnData :=
  let start := (StringInternTable.new.intern []).2
  let step := rows.foldl
    (fun (acc : List Nat × StringInternTable) row =>
      let s := ((row.get? col_idx).bind JsonValue.asStr).getD []
      let r := acc.2.intern s
      (acc.1 ++ [r.1], r.2))
    ([], start)
  ColumnData.strings step.1 step.2

/-- `ColumnarStore::ingest_rows`: set the row count, bump the generation,
detect each column's type from the first non-null value, and materialize the
typed arrays.  (The source does not touch `view_dirty` here.) -/
def ColumnarStore.ingest_rows (s : ColumnarStore)
    (rows : List (List JsonValue)) : ColumnarStore :=
  let col_count := s.columns.length
  let types := (List.range col_count).map (detect_type rows)
  { s with row_count := rows.length
           generation := s.generation + 1
           data := types.mapIdx fun col_idx t =>
             match t with
             | .float64 => ColumnData.float64 (ingestFloat64Column rows col_idx)
             | .string => ingestStringColumn rows col_idx
             | .bool => ColumnData.bool (ingestBoolColumn rows col_idx) }

/-- Input parameters for virtual scroll calculation
(`virtual_scroll.rs::ScrollState`); float fields carried at exact rationals. -/
structure ScrollState where
  scroll_top : ℚ
  viewport_height : ℚ
  row_height : ℚ
  total_rows : Nat
  overscan : Nat
  pinned_top : Option Nat
  pinned_bottom : Option Nat
  deriving DecidableEq

/-- The computed virtual slice (`virtual_scroll.rs::VirtualSlice`). -/
structure VirtualSlice where
  start_index : Nat
  end_index : Nat
  total_height : ℚ
  visible_count : Nat
  scrollable_count : Nat
  deriving DecidableEq

/-- Model of Rust's saturating `f64 as usize` cast applied to an integral
float: negative values clamp to zero. -/
def ratToUsize (q : ℤ) : Nat :=
  q.toNat

/-- `compute_virtual_slice`: the virtual-window calculator, translated
branch for branch (degenerate empty window, pinned collapse, main window
with overscan clamping). -/
def compute_virtual_slice (state : ScrollState) : VirtualSlice :=
  if state.total_rows = 0 ∨ state.row_height ≤ 0 then
    { start_index := 0, end_index := 0, total_height := 0
      visible_count := 0, scrollable_count := 0 }
  else
    let pinned_top := state.pinned_top.getD 0
    let pinned_bottom := state.pinned_bottom.getD 0
    let scrollable_count := state.total_rows - pinned_top - pinned_bottom
    let total_height := (state.total_rows : ℚ) * state.row_height
    let visible_count := ratToUsize ⌈state.viewport_height / state.row_height⌉
    if scrollable_count = 0 ∨ pinned_top + pinned_bottom ≥ state.total_rows then
      { start_index := pinned_top, end_index := pinned_top
        total_height := total_height, visible_count := 0
        scrollable_count := scrollable_count }
    else
      let first_visible_middle := ratToUsize ⌊state.scroll_top / state.row_height⌋
      let start_index := pinned_top +
        min (first_visible_middle - state.overscan) (scrollable_count - 1)
      let end_index :=
        min (pinned_top + first_visible_middle + visible_count + state.overscan)
          (state.total_rows - pinned_bottom)
      { start_index := start_index, end_index := end_index
        total_height := total_height, visible_count := visible_count
        scrollable_count := scrollable_count }

/-- `index_ops.rs::identity_indices`: the identity index list. -/
def identity_indices (n : Nat) : List Nat :=
  List.range n

/-- `sorting.rs::compare_values` (duplicated verbatim in `index_ops.rs`):
numbers compare numerically, strings and booleans by their own orders, null
is equal to null and below everything else, and mixed non-null types fall
back to comparing their serializations. -/
def compare_values (a b : JsonValue) : Ordering :=
  match a, b with
  | .num na, .num nb => compareQ (na : ℚ) (nb : ℚ)
  | .str sa, .str sb => listCompare sa sb
  | .bool ba, .bool bb =>
    if ba < bb then .lt else if bb < ba then .gt else .eq
  | .null, .null => .eq
  | .null, _ => .lt
  | _, .null => .gt
  | _, _ => listCompare (jsonToString a) (jsonToString b)

/-- `index_ops.rs::compare_values`: the mirrored copy kept self-contained in
that module, translated separately from its own source text. -/
def compare_values_index_ops (a b : JsonValue) : Ordering :=
  match a, b with
  | .num na, .num nb => compareQ (na : ℚ) (nb : ℚ)
  | .str sa, .str sb => listCompare sa sb
  | .bool ba, .bool bb =>
    if ba < bb then .lt else if bb < ba then .gt else .eq
  | .null, .null => .eq
  | .null, _ => .lt
  | _, .null => .gt
  | _, _ => listCompare (jsonToString a) (jsonToString b)

/-- The row comparator closure of `sorting.rs::apply_sort`: per key, fetch
the cells (`get(idx).unwrap_or(Null)`), compare, apply the direction, and
let the first non-equal key decide. -/
def rowCmp (configs : List SortConfig) (a b : List JsonValue) : Ordering :=
  match configs with
  | [] => .eq
  | config :: rest =>
    let val_a := (a.get? config.column_index).getD .null
    let val_b := (b.get? config.column_index).getD .null
    let ordering := compare_values val_a val_b
    let ordering := match config.direction with
      | .ascending => ordering
      | .descending => orderingReverse ordering
    if ordering ≠ .eq then ordering else rowCmp rest a b

/-- The index comparator closure of `index_ops.rs::sort_indices`: identical
loop over the rows fetched through the indices, using that module's copy of
`compare_values`. -/
def idxCmp (rows : List (List JsonValue)) (configs : List SortConfig)
    (a b : Nat) : Ordering :=
  match configs with
  | [] => .eq
  | config :: rest =>
    let row_a := rows.getD a []
    let row_b := rows.getD b []
    let val_a := (row_a.get? config.column_index).getD .null
    let val_b := (row_b.get? config.column_index).getD .null
    let ordering := compare_values_index_ops val_a val_b
    let ordering := match config.direction with
      | .ascending => ordering
      | .descending => orderingReverse ordering
    if ordering ≠ .eq then ordering else idxCmp rows rest a b

/-- `index_ops.rs::sort_indices`: stable in-place sort of the indices by
comparing the original rows (early return on an empty config list). -/
def sort_indices (indices : List Nat) (rows : List (List JsonValue))
    (configs : List SortConfig) : List Nat :=
  if configs = [] then indices
  else isortBy (idxCmp rows configs) indices

/-- `sorting.rs::apply_sort`: stable multi-column sort of the rows
themselves (no early return; an empty config list yields an all-equal
comparator). -/
def apply_sort (rows : List (List JsonValue)) (configs : List SortConfig) :
    List (List JsonValue) :=
  isortBy (rowCmp configs) rows

/-- Global text filter (`types.rs::GlobalFilter`), query as bytes. -/
structure GlobalFilter where
  query : List Nat
  deriving DecidableEq

/-- Whether the store holds at least one String column. -/
def storeHasStringColumn (store : ColumnarStore) : Bool :=
  store.data.any fun col =>
    match col with
    | .strings _ _ => true
    | _ => false

/-- Modelled from the spec: whether one row passes the global filter — the
typed filter engine (`ColumnarStore::set_global_filter` and the global pass
of the newer `rebuild_view`) is called from the wasm crate but its body is
not among the sources, so the spec's words define it: a row passes iff any
String column's resolved value case-insensitively contains the lower-cased
query, and a table with zero String columns passes every row unchanged. -/
def rowMatchesGlobal (store : ColumnarStore) (query : List Nat)
    (idx : Nat) : Bool :=
  if storeHasStringColumn store = false then true
  else
    store.data.any fun col =>
      match col with
      | .strings ids intern =>
        listContains (toLower (intern.resolve (ids.getD idx 0))) (toLower query)
      | _ => false

/-- Modelled from the spec: the store extended with the optional global
filter held by the newer engine that the wasm bindings drive
(`ColumnarStore::set_global_filter` is missing from the sources). -/
structure ColumnarStoreG where
  core : ColumnarStore
  global_filter : Option GlobalFilter
  deriving DecidableEq

/-- Modelled from the spec: `set_global_filter` stores the optional query
and, like every view-config setter, marks the view dirty. -/
def ColumnarStoreG.set_global_filter (s : ColumnarStoreG)
    (gf : Option GlobalFilter) : ColumnarStoreG :=
  { core := { s.core with view_dirty := true }, global_filter := gf }

/-- Modelled from the spec: the full `rebuild_view` of the engine the wasm
bindings call — no-op while clean, otherwise identity indices, column
filters, the global filter when set with a non-empty query, the sort engine
when sort keys are configured, store the result and clear the dirty flag.
The column-filter and sort passes are the ones present in the sources. -/
def ColumnarStoreG.rebuild_view (s : ColumnarStoreG) : ColumnarStoreG :=
  if s.core.view_dirty = false then s
  else
    let all := List.range s.core.row_count
    let indices := filter_indices_columnar all s.core s.core.filter_conditions
    let indices := match s.global_filter with
      | some gf =>
        if gf.query ≠ [] then indices.filter (rowMatchesGlobal s.core gf.query)
        else indices
      | none => indices
    let indices := if s.core.sort_configs = [] then indices
      else sort_indices_columnar indices s.core s.core.sort_configs
    { core := { s.core with view_dirty := false, view_indices := indices }
      global_filter := s.global_filter }

/-- The global-filter stage of the rebuilt pipeline: a no-op unless a
global filter with a non-empty query is set. -/
def applyGlobalStage (store : ColumnarStore) (gf : Option GlobalFilter)
    (indices : List Nat) : List Nat :=
  match gf with
  | some g => if g.query ≠ [] then indices.filter (rowMatchesGlobal store g.query)
    else indices
  | none => indices

/-- The sort stage of the rebuilt pipeline: a no-op unless sort keys are
configured. -/
def applySortStage (store : ColumnarStore) (indices : List Nat) : List Nat :=
  if store.sort_configs = [] then indices
  else sort_indices_columnar indices store store.sort_configs

/-- Direction application of one sort key (the `match config.direction`
inside the comparator closures). -/
def dirApply (d : SortDirection) (o : Ordering) : Ordering :=
  match d with
  | .ascending => o
  | .descending => orderingReverse o

-- ── Concrete fixtures used by counterexamples and witnesses ───────────

/-- A one-column ColumnDef fixture. -/
def ageCol : ColumnDef :=
  { key := "age", header := "Age", width := none, sortable := true
    filterable := true }

/-- Store with a single Float64 column holding one NaN cell. -/
def nanStore : ColumnarStore :=
  { ColumnarStore.new with
      columns := [ageCol]
      data := [ColumnData.float64 [F64.nan]]
      row_count := 1 }

/-- NotEquals-5 filter on the `age` column. -/
def neqFiveCond : FilterCondition :=
  { column_key := "age", operator := .notEquals, value := .num 5 }

/-- `1 - 2 ^ (-53)`: a float strictly between `1 - ε` and `1`, exactly
representable in `f64` (its IEEE subtraction from 1 is exact). -/
def nearOneCell : ℚ := 1 - 1 / 2 ^ 53

/-- Store with a single Float64 column holding `nearOneCell`. -/
def nearOneStore : ColumnarStore :=
  { ColumnarStore.new with
      columns := [ageCol]
      data := [ColumnData.float64 [F64.val nearOneCell]]
      row_count := 1 }

/-- GreaterThanOrEqual-1 filter on the `age` column. -/
def gteOneCond : FilterCondition :=
  { column_key := "age", operator := .greaterThanOrEqual, value := .num 1 }

/-- Store with a single Float64 column holding 30.0. -/
def thirtyStore : ColumnarStore :=
  { ColumnarStore.new with
      columns := [ageCol]
      data := [ColumnData.float64 [F64.val 30]]
      row_count := 1 }

/-- NotEquals filter whose operand is the (non-numeric) string "x". -/
def neqStrCond : FilterCondition :=
  { column_key := "age", operator := .notEquals, value := .str [120] }

/-- Scroll state scrolled far past the end with a zero-height viewport and
zero overscan. -/
def farScrollState : ScrollState :=
  { scroll_top := 1000, viewport_height := 0, row_height := 1
    total_rows := 10, overscan := 0, pinned_top := none, pinned_bottom := none }

/-- Scroll state whose pinned-top count exceeds the row count. -/
def overPinnedState : ScrollState :=
  { scroll_top := 0, viewport_height := 400, row_height := 40
    total_rows := 5, overscan := 0, pinned_top := some 100
    pinned_bottom := none }

/-- The spec's windowing fixture: 1000 rows of height 40 in a 400-high
viewport with overscan 5. -/
def basicScrollState : ScrollState :=
  { scroll_top := 0, viewport_height := 400, row_height := 40
    total_rows := 1000, overscan := 5, pinned_top := none
    pinned_bottom := none }

/-- Store with a single Float64 column `[NaN, 10.0, 5.0]`. -/
def nanTenFiveStore : ColumnarStore :=
  { ColumnarStore.new with
      columns := [ageCol]
      data := [ColumnData.float64 [F64.nan, F64.val 10, F64.val 5]]
      row_count := 3 }

/-- Store with a single Float64 column of two equal cells. -/
def twinStore : ColumnarStore :=
  { ColumnarStore.new with
      columns := [ageCol]
      data := [ColumnData.float64 [F64.val 5, F64.val 5]]
      row_count := 2 }

-- ── C9 ────────────────────────────────────────────────────────────────

/-- C9: calling `set_column_float64`, `set_column_bool` or
`set_column_strings` with a column index at or beyond the number of
allocated columns leaves the entire store state unchanged — a silent no-op
with no error. -/
theorem claim_C9_setters_out_of_range_noop (s : ColumnarStore) (ci : Nat)
    (vs : List F64) (unique : List (List Nat)) (ids : List Nat)
    (h : s.data.length ≤ ci) :
    s.set_column_float64 ci vs = s ∧ s.set_column_bool ci vs = s ∧
      s.set_column_strings ci unique ids = s := by
  have hn : ¬ ci < s.data.length := Nat.not_lt.2 h
  refine ⟨?_, ?_, ?_⟩ <;>
    simp [ColumnarStore.set_column_float64, ColumnarStore.set_column_bool,
      ColumnarStore.set_column_strings, hn]

/-- Witness for C9 at the empty store and column index 0. -/
theorem claim_C9_witness :
    ColumnarStore.new.data.length ≤ 0 ∧
      (ColumnarStore.new.set_column_float64 0 [F64.val 1] = ColumnarStore.new ∧
        ColumnarStore.new.set_column_bool 0 [F64.val 1] = ColumnarStore.new ∧
        ColumnarStore.new.set_column_strings 0 [[97]] [0] = ColumnarStore.new) :=
  ⟨by decide,
    claim_C9_setters_out_of_range_noop ColumnarStore.new 0 [F64.val 1] [[97]] [0]
      (by decide)⟩

-- ── C5 ────────────────────────────────────────────────────────────────

/-- C5 (code bug): `ingest_rows` sets `row_count` and increments
`generation`, but never touches `view_dirty` — ingesting into a store whose
view was just rebuilt leaves the view clean, so the stale `view_indices`
survive, contradicting the documented "every ingestion path marks the view
dirty" (the direct `init`/`finalize` path does set it). -/
theorem claim_C5_ingest_leaves_view_clean :
    (((ColumnarStore.new.set_columns [ageCol]).rebuild_view.ingest_rows
        [[JsonValue.num 1]]).view_dirty = false ∧
      ((ColumnarStore.new.set_columns [ageCol]).rebuild_view.ingest_rows
        [[JsonValue.num 1]]).row_count = 1 ∧
      ((ColumnarStore.new.set_columns [ageCol]).rebuild_view.ingest_rows
        [[JsonValue.num 1]]).generation = 1) ∧
    ((ColumnarStore.new.set_columns [ageCol]).init 1 1).view_dirty = true ∧
    ((ColumnarStore.new.set_columns [ageCol]).rebuild_view.finalize).view_dirty
      = true := by
  decide

-- ── C1 ────────────────────────────────────────────────────────────────

/-- C1 counterexample: a NaN (null) cell in a Float64 column satisfies the
`NotEquals` filter, and the rebuilt view with that filter active does
contain the NaN row — refuting "a NaN cell satisfies no filter operator and
never appears in `view_indices`". -/
theorem claim_C1_counterexample :
    matches_columnar nanStore 0 0 neqFiveCond = true ∧
      ({ nanStore with
          filter_conditions := [neqFiveCond] }).rebuild_view.view_indices
        = [0] := by
  decide

/-- C1 (amended): for every Float64 or Bool column and every filter
targeting it, a row whose cell is NaN satisfies the filter exactly when the
operator is `NotEquals`; for every other operator the row is excluded. -/
theorem claim_C1_amended (s : ColumnarStore) (ci r : Nat) (v : List F64)
    (cond : FilterCondition)
    (hcol : s.data.get? ci = some (.float64 v) ∨
      s.data.get? ci = some (.bool v))
    (hcell : v.get? r = some .nan) :
    (matches_columnar s ci r cond = true ↔ cond.operator = .notEquals) := by
  rcases hcol with h | h <;>
    simp only [List.get?_eq_getElem?] at h hcell <;>
    simp [matches_columnar, h, hcell]

/-- Witness for C1 at the one-row NaN store and the NotEquals filter. -/
theorem claim_C1_witness :
    nanStore.data.get? 0 = some (ColumnData.float64 [F64.nan]) ∧
      [F64.nan].get? 0 = some F64.nan ∧
      (matches_columnar nanStore 0 0 neqFiveCond = true ↔
        neqFiveCond.operator = .notEquals) :=
  ⟨by decide, by decide,
    claim_C1_amended nanStore 0 0 [F64.nan] neqFiveCond (Or.inl (by decide))
      (by decide)⟩

-- ── C3 ────────────────────────────────────────────────────────────────

/-- C3 counterexample: the cell `1 - 2 ^ (-53)` lies within epsilon below
the operand 1 (so the claimed relaxed boundary `c ≥ v - ε` holds, while
`c < v`), yet the `GreaterThanOrEqual` filter rejects it — the code compares
exactly, with no epsilon relaxation. -/
theorem claim_C3_counterexample :
    matches_columnar nearOneStore 0 0 gteOneCond = false ∧
      nearOneCell ≥ 1 - epsilon ∧ nearOneCell < 1 := by
  refine ⟨?_, ?_, ?_⟩
  · simp [matches_columnar, nearOneStore, gteOneCond, JsonValue.asF64,
      nearOneCell]
  · norm_num [nearOneCell, epsilon]
  · norm_num [nearOneCell]

/-- C3 (amended): for a non-NaN numeric cell `c` and numeric operand `v`,
equality holds iff `|c - v| < ε` and inequality iff `|c - v| ≥ ε`, but the
four ordering operators compare exactly: `GreaterThanOrEqual` iff `c ≥ v`,
`LessThanOrEqual` iff `c ≤ v`, `GreaterThan` iff `c > v`, `LessThan` iff
`c < v` — no epsilon relaxation of the boundaries. -/
theorem claim_C3_amended (s : ColumnarStore) (ci r : Nat) (v : List F64)
    (cond : FilterCondition) (c fv : ℚ)
    (hcol : s.data.get? ci = some (.float64 v) ∨
      s.data.get? ci = some (.bool v))
    (hcell : v.get? r = some (.val c))
    (hval : cond.value.asF64 = some fv) :
    (cond.operator = .equals →
      (matches_columnar s ci r cond = true ↔ |c - fv| < epsilon)) ∧
    (cond.operator = .notEquals →
      (matches_columnar s ci r cond = true ↔ |c - fv| ≥ epsilon)) ∧
    (cond.operator = .greaterThanOrEqual →
      (matches_columnar s ci r cond = true ↔ c ≥ fv)) ∧
    (cond.operator = .lessThanOrEqual →
      (matches_columnar s ci r cond = true ↔ c ≤ fv)) ∧
    (cond.operator = .greaterThan →
      (matches_columnar s ci r cond = true ↔ c > fv)) ∧
    (cond.operator = .lessThan →
      (matches_columnar s ci r cond = true ↔ c < fv)) := by
  rcases hcol with h | h <;>
    simp only [List.get?_eq_getElem?] at h hcell <;>
    refine ⟨?_, ?_, ?_, ?_, ?_, ?_⟩ <;> intro hop <;>
      simp [matches_columnar, h, hcell, hval, hop]

/-- Witness for C3: the `GreaterThanOrEqual` part at cell 30 and operand
30. -/
theorem claim_C3_witness :
    thirtyStore.data.get? 0 = some (ColumnData.float64 [F64.val 30]) ∧
      [F64.val 30].get? 0 = some (F64.val 30) ∧
      JsonValue.asF64 (.num 30) = some ((30 : ℤ) : ℚ) ∧
      (matches_columnar thirtyStore 0 0
          { column_key := "age", operator := .greaterThanOrEqual
            value := .num 30 } = true ↔ (30 : ℚ) ≥ ((30 : ℤ) : ℚ)) :=
  ⟨by decide, by decide, rfl,
    (claim_C3_amended thirtyStore 0 0 [F64.val 30]
        { column_key := "age", operator := .greaterThanOrEqual
          value := .num 30 } 30 ((30 : ℤ) : ℚ) (Or.inl (by decide))
        (by decide) rfl).2.2.1 rfl⟩

-- ── C4 ────────────────────────────────────────────────────────────────

/-- C4 counterexample: a non-numeric (string) operand against a Float64
column with the `NotEquals` operator matches the row — the row survives the
filter pass — refuting "a type-mismatched operand evaluates to row-excluded
for every operator". -/
theorem claim_C4_counterexample :
    matches_columnar thirtyStore 0 0 neqStrCond = true ∧
      filter_indices_columnar [0] thirtyStore [neqStrCond] = [0] := by
  decide

/-- C4 (amended): an operand/column type mismatch raises no error but does
not uniformly exclude the row: on a Float64/Bool column a non-numeric
operand matches exactly the `NotEquals` operator (every other operator,
substring included, excludes the row); a substring operator on a numeric
column always excludes; on a String column a non-string operand is
evaluated as the empty string. -/
theorem claim_C4_amended :
    (∀ (s : ColumnarStore) (ci r : Nat) (v : List F64)
      (cond : FilterCondition),
      (s.data.get? ci = some (.float64 v) ∨
        s.data.get? ci = some (.bool v)) →
      cond.value.asF64 = none →
      (matches_columnar s ci r cond = true ↔ cond.operator = .notEquals)) ∧
    (∀ (s : ColumnarStore) (ci r : Nat) (v : List F64)
      (cond : FilterCondition),
      (s.data.get? ci = some (.float64 v) ∨
        s.data.get? ci = some (.bool v)) →
      cond.operator = .contains →
      matches_columnar s ci r cond = false) ∧
    (∀ (s : ColumnarStore) (ci r : Nat) (ids : List Nat)
      (intern : StringInternTable) (cond : FilterCondition),
      s.data.get? ci = some (.strings ids intern) →
      cond.value.asStr = none →
      matches_columnar s ci r cond =
        matches_columnar s ci r { cond with value := .str [] }) := by
  refine ⟨?_, ?_, ?_⟩
  · intro s ci r v cond hcol hval
    rcases hcol with h | h <;>
      simp only [List.get?_eq_getElem?] at h <;>
      rcases hc : (v.getD r .nan) with _ | c <;>
      simp only [List.getD_eq_getElem?_getD] at hc <;>
      cases hop : cond.operator <;>
        simp [matches_columnar, h, hc, hval, hop]
  · intro s ci r v cond hcol hop
    rcases hcol with h | h <;>
      simp only [List.get?_eq_getElem?] at h <;>
      rcases hc : (v.getD r .nan) with _ | c <;>
      simp only [List.getD_eq_getElem?_getD] at hc <;>
        simp [matches_columnar, h, hc, hop]
  · intro s ci r ids intern cond hcol hval
    simp only [List.get?_eq_getElem?] at hcol
    simp [matches_columnar, hcol, hval]
    simp [JsonValue.asStr]

/-- Witness for C4: the first part at a Float64 cell 30 and a string
operand. -/
theorem claim_C4_witness :
    thirtyStore.data.get? 0 = some (ColumnData.float64 [F64.val 30]) ∧
      neqStrCond.value.asF64 = none ∧
      (matches_columnar thirtyStore 0 0 neqStrCond = true ↔
        neqStrCond.operator = .notEquals) :=
  ⟨by decide, rfl,
    claim_C4_amended.1 thirtyStore 0 0 [F64.val 30] neqStrCond
      (Or.inl (by decide)) rfl⟩

-- ── C7 ────────────────────────────────────────────────────────────────

/-- C7: the per-key comparator orders a NaN cell equal to another NaN and
strictly below every non-NaN value on Float64/Bool columns, compares String
columns by ordinal byte order of the resolved cells, and sorting the
Float64 column `[NaN, 10.0, 5.0]` descending yields the index order
`[1, 2, 0]`. -/
theorem claim_C7_comparator_nan_minimal :
    (∀ (s : ColumnarStore) (ci i j : Nat) (v : List F64),
      (s.data.get? ci = some (.float64 v) ∨
        s.data.get? ci = some (.bool v)) →
      v.get? i = some .nan → v.get? j = some .nan →
      compare_columnar s ci i j = .eq) ∧
    (∀ (s : ColumnarStore) (ci i j : Nat) (v : List F64) (q : ℚ),
      (s.data.get? ci = some (.float64 v) ∨
        s.data.get? ci = some (.bool v)) →
      v.get? i = some .nan → v.get? j = some (.val q) →
      compare_columnar s ci i j = .lt ∧ compare_columnar s ci j i = .gt) ∧
    (∀ (s : ColumnarStore) (ci i j : Nat) (ids : List Nat)
      (intern : StringInternTable),
      s.data.get? ci = some (.strings ids intern) →
      compare_columnar s ci i j =
        listCompare (intern.resolve (ids.getD i 0))
          (intern.resolve (ids.getD j 0))) ∧
    sort_indices_columnar [0, 1, 2] nanTenFiveStore
      [{ column_index := 0, direction := .descending }] = [1, 2, 0] := by
  refine ⟨?_, ?_, ?_, by decide⟩
  · intro s ci i j v hcol hi hj
    rcases hcol with h | h <;>
      simp only [List.get?_eq_getElem?] at h hi hj <;>
      simp [compare_columnar, h, hi, hj]
  · intro s ci i j v q hcol hi hj
    rcases hcol with h | h <;>
      simp only [List.get?_eq_getElem?] at h hi hj <;>
      simp [compare_columnar, h, hi, hj]
  · intro s ci i j ids intern hcol
    simp only [List.get?_eq_getElem?] at hcol
    simp [compare_columnar, hcol, List.getD_eq_getElem?_getD]

/-- Witness for C7: both cells NaN in the one-row NaN store compare
`Equal`. -/
theorem claim_C7_witness :
    nanStore.data.get? 0 = some (ColumnData.float64 [F64.nan]) ∧
      [F64.nan].get? 0 = some F64.nan ∧
      compare_columnar nanStore 0 0 0 = .eq :=
  ⟨by decide, by decide,
    claim_C7_comparator_nan_minimal.1 nanStore 0 0 0 [F64.nan]
      (Or.inl (by decide)) (by decide) (by decide)⟩

-- ── C6 ────────────────────────────────────────────────────────────────

/-- C6 counterexample: with a zero-height viewport, zero overscan and the
scroll far past the end, the slice is `[9, 10)` of size 1 while
`visible_count + 2*overscan = 0`; and with `pinned_top = 100 > total_rows
= 5` the collapsed slice sits at `start = end = 100 > total_rows` — both
refuting the claimed bounds. -/
theorem claim_C6_counterexample :
    ¬((compute_virtual_slice farScrollState).end_index -
        (compute_virtual_slice farScrollState).start_index ≤
      (compute_virtual_slice farScrollState).visible_count +
        2 * farScrollState.overscan) ∧
    ¬((compute_virtual_slice overPinnedState).end_index ≤
        overPinnedState.total_rows) := by
  constructor <;>
    simp [compute_virtual_slice, farScrollState, overPinnedState,
      ratToUsize] <;>
    norm_num

/-- C6 (amended): provided the pinned-top count does not exceed
`total_rows`, every slice satisfies `start_index ≤ end_index ≤ total_rows`
and `end_index - start_index ≤ max (visible_count + 2*overscan) 1` — the
claimed bound can be exceeded by exactly the one-row clamp when
`visible_count + 2*overscan = 0`. -/
theorem claim_C6_amended (s : ScrollState)
    (hpt : s.pinned_top.getD 0 ≤ s.total_rows) :
    (compute_virtual_slice s).start_index ≤ (compute_virtual_slice s).end_index ∧
    (compute_virtual_slice s).end_index ≤ s.total_rows ∧
    (compute_virtual_slice s).end_index - (compute_virtual_slice s).start_index ≤
      max ((compute_virtual_slice s).visible_count + 2 * s.overscan) 1 := by
  simp only [compute_virtual_slice]
  split
  · dsimp only
    omega
  · split
    · dsimp only
      omega
    · generalize ratToUsize ⌊s.scroll_top / s.row_height⌋ = fvm
      generalize ratToUsize ⌈s.viewport_height / s.row_height⌉ = vis
      dsimp only
      omega

/-- Witness for C6 at the spec's 1000-row fixture. -/
theorem claim_C6_witness :
    basicScrollState.pinned_top.getD 0 ≤ basicScrollState.total_rows ∧
      ((compute_virtual_slice basicScrollState).start_index ≤
          (compute_virtual_slice basicScrollState).end_index ∧
        (compute_virtual_slice basicScrollState).end_index ≤
          basicScrollState.total_rows ∧
        (compute_virtual_slice basicScrollState).end_index -
            (compute_virtual_slice basicScrollState).start_index ≤
          max ((compute_virtual_slice basicScrollState).visible_count +
            2 * basicScrollState.overscan) 1) :=
  ⟨by decide, claim_C6_amended basicScrollState (by decide)⟩

-- ── C2 ────────────────────────────────────────────────────────────────

/-- C2: whenever the view is dirty, `rebuild_view` computes the view as the
identity index list filtered by the column filters, then by the global
filter (when set with a non-empty query; a table with zero String columns
passes every row unchanged), then sorted (when sort keys are configured),
stores the result as `view_indices` and clears the dirty flag, touching
neither the generation nor the data. -/
theorem claim_C2_rebuild_pipeline (s : ColumnarStoreG)
    (h : s.core.view_dirty = true) :
    s.rebuild_view.core.view_indices =
      applySortStage s.core
        (applyGlobalStage s.core s.global_filter
          (filter_indices_columnar (List.range s.core.row_count) s.core
            s.core.filter_conditions)) ∧
    (∀ (gf : Option GlobalFilter) (indices : List Nat),
      storeHasStringColumn s.core = false →
      applyGlobalStage s.core gf indices = indices) ∧
    s.rebuild_view.core.view_dirty = false ∧
    s.rebuild_view.global_filter = s.global_filter ∧
    s.rebuild_view.core.generation = s.core.generation ∧
    s.rebuild_view.core.row_count = s.core.row_count ∧
    s.rebuild_view.core.data = s.core.data := by
  refine ⟨?_, ?_, ?_, ?_, ?_, ?_, ?_⟩
  · simp [ColumnarStoreG.rebuild_view, h, applySortStage, applyGlobalStage]
  · intro gf indices hns
    cases gf with
    | none => rfl
    | some g =>
      by_cases hq : g.query = []
      · simp [applyGlobalStage, hq]
      · simp only [applyGlobalStage, hq, ne_eq, not_false_eq_true, if_true]
        exact List.filter_eq_self.2 fun a _ => by simp [rowMatchesGlobal, hns]
  all_goals simp [ColumnarStoreG.rebuild_view, h]

/-- Witness for C2 at a fresh (dirty) store with no global filter. -/
theorem claim_C2_witness :
    (({ core := ColumnarStore.new, global_filter := none } :
        ColumnarStoreG).core.view_dirty = true) ∧
      (({ core := ColumnarStore.new, global_filter := none } :
          ColumnarStoreG).rebuild_view.core.view_indices =
        applySortStage ColumnarStore.new
          (applyGlobalStage ColumnarStore.new none
            (filter_indices_columnar (List.range ColumnarStore.new.row_count)
              ColumnarStore.new ColumnarStore.new.filter_conditions))) :=
  ⟨by decide,
    (claim_C2_rebuild_pipeline
      { core := ColumnarStore.new, global_filter := none } (by decide)).1⟩

-- ── Stable-sort helper lemmas ─────────────────────────────────────────

theorem orderingReverse_eq_eq {o : Ordering} :
    orderingReverse o = .eq ↔ o = .eq := by
  cases o <;> simp [orderingReverse]

theorem sublist_insertBy (cmp : α → α → Ordering) (x : α) (t : List α) :
    t.Sublist (insertBy cmp x t) := by
  induction t with
  | nil => simp [insertBy]
  | cons y ys ih =>
    simp only [insertBy]
    split
    · exact List.Sublist.cons₂ y ih
    · exact List.Sublist.cons x (List.Sublist.refl _)

theorem mem_insertBy {cmp : α → α → Ordering} {x a : α} {t : List α} :
    a ∈ insertBy cmp x t ↔ a = x ∨ a ∈ t := by
  induction t with
  | nil => simp [insertBy]
  | cons y ys ih =>
    simp only [insertBy]
    split
    · rw [List.mem_cons, ih, List.mem_cons]
      tauto
    · rw [List.mem_cons, List.mem_cons]

theorem mem_isortBy {cmp : α → α → Ordering} {a : α} :
    ∀ {l : List α}, a ∈ isortBy cmp l ↔ a ∈ l := by
  intro l
  induction l with
  | nil => simp [isortBy]
  | cons x xs ih => simp [isortBy, mem_insertBy, ih]

theorem pair_sublist_insertBy {cmp : α → α → Ordering} {i j : α}
    {t : List α} (h : cmp i j ≠ .gt) (hj : j ∈ t) :
    [i, j].Sublist (insertBy cmp i t) := by
  induction t with
  | nil => cases hj
  | cons y ys ih =>
    simp only [insertBy]
    split
    case _ hcmp =>
      rcases List.mem_cons.1 hj with rfl | hj'
      · exact absurd hcmp h
      · exact List.Sublist.cons y (ih hj')
    case _ hcmp =>
      exact List.Sublist.cons₂ i (List.singleton_sublist.2 hj)

theorem pair_sublist_isortBy {cmp : α → α → Ordering} {i j : α}
    (heq : cmp i j = .eq) :
    ∀ {l : List α}, [i, j].Sublist l → [i, j].Sublist (isortBy cmp l) := by
  intro l
  induction l with
  | nil => intro h; exact absurd h (by simp)
  | cons x xs ih =>
    intro h
    cases h with
    | cons _ h' =>
      exact (ih h').trans (sublist_insertBy cmp x (isortBy cmp xs))
    | cons₂ _ h' =>
      have hj : j ∈ isortBy cmp xs :=
        mem_isortBy.2 (List.singleton_sublist.1 h')
      exact pair_sublist_insertBy (by simp [heq]) hj

theorem cmpKeys_eq_of_forall (store : ColumnarStore)
    (configs : List SortConfig) (i j : Nat)
    (h : ∀ cfg ∈ configs, dirApply cfg.direction
      (compare_columnar store cfg.column_index i j) = .eq) :
    cmpKeys store configs i j = .eq := by
  induction configs with
  | nil => rfl
  | cons c rest ih =>
    have hc := h c (List.mem_cons_self _ _)
    have hr := ih fun cfg hm => h cfg (List.mem_cons_of_mem _ hm)
    cases hd : c.direction <;>
      simp only [hd, dirApply] at hc <;>
      simp [cmpKeys, hd, hc, orderingReverse_eq_eq.1, hr]

-- ── C8 ────────────────────────────────────────────────────────────────

/-- C8: the multi-key index sort is stable — for every input index list and
every pair of indices on which every configured sort key (after applying
its direction) compares `Equal`, the pair's relative order in the sorted
output equals its order in the input (stated as preservation of the
two-element sublist). -/
theorem claim_C8_sort_stable (store : ColumnarStore)
    (configs : List SortConfig) (l : List Nat) (i j : Nat)
    (heq : ∀ cfg ∈ configs, dirApply cfg.direction
      (compare_columnar store cfg.column_index i j) = .eq)
    (hij : [i, j].Sublist l) :
    [i, j].Sublist (sort_indices_columnar l store configs) := by
  unfold sort_indices_columnar
  split
  · exact hij
  · exact pair_sublist_isortBy (cmpKeys_eq_of_forall store configs i j heq) hij

/-- Witness for C8 at a two-row column of equal cells. -/
theorem claim_C8_witness :
    (∀ cfg ∈ [({ column_index := 0, direction := .ascending } : SortConfig)],
      dirApply cfg.direction (compare_columnar twinStore cfg.column_index 1 0)
        = .eq) ∧
      [1, 0].Sublist [1, 0] ∧
      [1, 0].Sublist (sort_indices_columnar [1, 0] twinStore
        [{ column_index := 0, direction := .ascending }]) :=
  ⟨by decide, List.Sublist.refl _,
    claim_C8_sort_stable twinStore
      [{ column_index := 0, direction := .ascending }] [1, 0] 1 0
      (by decide) (List.Sublist.refl _)⟩

-- ── C10 helper lemmas ─────────────────────────────────────────────────

theorem map_insertBy (f : α → β) (cmp : α → α → Ordering)
    (cmp' : β → β → Ordering) (hc : ∀ a b, cmp' (f a) (f b) = cmp a b)
    (x : α) (t : List α) :
    (insertBy cmp x t).map f = insertBy cmp' (f x) (t.map f) := by
  induction t with
  | nil => simp [insertBy]
  | cons y ys ih =>
    simp only [insertBy, List.map_cons, hc]
    split <;> simp [ih, List.map_cons]

theorem map_isortBy (f : α → β) (cmp : α → α → Ordering)
    (cmp' : β → β → Ordering) (hc : ∀ a b, cmp' (f a) (f b) = cmp a b) :
    ∀ l : List α, (isortBy cmp l).map f = isortBy cmp' (l.map f) := by
  intro l
  induction l with
  | nil => simp [isortBy]
  | cons x xs ih => simp [isortBy, map_insertBy f cmp cmp' hc, ih]

theorem insertBy_eq_cons {cmp : α → α → Ordering}
    (h : ∀ a b, cmp a b ≠ .gt) (x : α) (t : List α) :
    insertBy cmp x t = x :: t := by
  cases t <;> simp [insertBy, h]

theorem isortBy_all_eq {cmp : α → α → Ordering}
    (h : ∀ a b, cmp a b ≠ .gt) : ∀ l : List α, isortBy cmp l = l := by
  intro l
  induction l with
  | nil => rfl
  | cons x xs ih => rw [isortBy, ih, insertBy_eq_cons h]

theorem compare_values_index_ops_eq (a b : JsonValue) :
    compare_values_index_ops a b = compare_values a b := by
  cases a <;> cases b <;> rfl

theorem idxCmp_eq_rowCmp (rows : List (List JsonValue)) :
    ∀ (configs : List SortConfig) (a b : Nat),
      idxCmp rows configs a b =
        rowCmp configs (rows.getD a []) (rows.getD b []) := by
  intro configs
  induction configs with
  | nil => intro a b; rfl
  | cons c rest ih =>
    intro a b
    simp only [idxCmp, rowCmp, compare_values_index_ops_eq, ih]

theorem map_getD_range (l : List α) (d : α) :
    (List.range l.length).map (fun i => l.getD i d) = l := by
  induction l with
  | nil => simp
  | cons x xs ih =>
    rw [List.length_cons, List.range_succ_eq_map, List.map_cons,
      List.map_map]
    have hcomp : ((fun i => (x :: xs).getD i d) ∘ Nat.succ) =
        fun i => xs.getD i d := by
      funext i
      simp [List.getD_cons_succ]
    rw [hcomp, ih]
    simp

-- ── C10 ───────────────────────────────────────────────────────────────

/-- C10: for every list of rows and every list of sort configs, sorting an
identity index list with the index-based sort and reading the rows through
the resulting indices yields exactly the row sequence produced by sorting
the rows directly with the row-based sort — the two implementations are
equivalent. -/
theorem claim_C10_sort_equivalence (rows : List (List JsonValue))
    (configs : List SortConfig) :
    (sort_indices (identity_indices rows.length) rows configs).map
      (fun i => rows.getD i []) = apply_sort rows configs := by
  unfold sort_indices apply_sort identity_indices
  split
  case _ hc =>
    subst hc
    rw [map_getD_range]
    exact (isortBy_all_eq (fun a b => by simp [rowCmp]) rows).symm
  case _ hc =>
    rw [map_isortBy (fun i => rows.getD i []) (idxCmp rows configs)
        (rowCmp configs) (fun a b => (idxCmp_eq_rowCmp rows configs a b).symm),
      map_getD_range]

end ReactWasmTable
